import Mathlib

/-!
Shallow embedding of the aerynos-infra worker core:
the avalanche build pipeline (crates/avalanche/src/build.rs),
the SharedMap synchronization primitive (crates/service/src/sync.rs),
and profile remote creation (crates/summit/src/profile/remote.rs).

Paths are modelled as lists of components; `PathBuf::join` with a relative
chunk appends that chunk as one component.  External effects (filesystem,
git subprocesses, the builder tool, URI parsing by the http crate, digest
computation) are modelled by an oracle environment `Env` recording the
outcome of each fallible call, and the pipeline additionally returns the
trace of filesystem/subprocess operations it attempted, in order.
-/

namespace AerynOS

/-! ## Paths -/

abbrev Path := List String

/-- Model of `PathBuf::join` with a relative string chunk. -/
def joinStr (p : Path) (s : String) : Path := p ++ [s]

/-- Model of `Path::parent`: `None` only for an empty path. -/
def pathParent (p : Path) : Option Path :=
  if p = [] then none else some p.dropLast

/-! ## Decimal rendering of a `u64` (`build_id.to_string()`)

Rust `u64::Display` prints the decimal digits, most significant first,
with no leading zeros and `"0"` for zero. -/

/-- Least-significant-first decimal digits, with explicit fuel so that the
definition is structural and evaluates by `rfl`/`decide`. -/
def decAux : Nat → Nat → List Nat
  | 0, _ => []
  | fuel + 1, n => if n = 0 then [] else n % 10 :: decAux fuel (n / 10)

/-- Least-significant-first decimal digits of `n`. -/
def decDigits (n : Nat) : List Nat := decAux n n

/-- Recombine least-significant-first digits into a number. -/
def undigits : List Nat → Nat
  | [] => 0
  | d :: ds => d + 10 * undigits ds

/-- Digit to character, as in decimal `Display`. -/
def decChar (d : Nat) : Char := Char.ofNat (48 + d)

/-- Embedding of Rust `u64::to_string()`. -/
def u64_to_string (n : Nat) : String :=
  if n = 0 then "0" else String.mk ((decDigits n).reverse.map decChar)

theorem undigits_decAux : ∀ fuel n, n ≤ fuel → undigits (decAux fuel n) = n := by
  intro fuel
  induction fuel with
  | zero => intro n h; simp [decAux, undigits]; omega
  | succ f ih =>
    intro n h
    by_cases h0 : n = 0
    · simp [decAux, h0, undigits]
    · rw [decAux, if_neg h0, undigits, ih (n / 10) (by omega)]
      omega

theorem undigits_decDigits (n : Nat) : undigits (decDigits n) = n :=
  undigits_decAux n n (Nat.le_refl n)

theorem decDigits_injective : Function.Injective decDigits := by
  intro a b h
  have ha := undigits_decDigits a
  have hb := undigits_decDigits b
  rw [h] at ha
  omega

theorem decAux_lt_ten : ∀ fuel n d, d ∈ decAux fuel n → d < 10 := by
  intro fuel
  induction fuel with
  | zero => intro n d h; simp [decAux] at h
  | succ f ih =>
    intro n d h
    by_cases h0 : n = 0
    · simp [decAux, h0] at h
    · rw [decAux, if_neg h0] at h
      rcases List.mem_cons.mp h with h | h
      · omega
      · exact ih _ _ h

theorem decChar_inj {a b : Nat} (ha : a < 10) (hb : b < 10)
    (h : decChar a = decChar b) : a = b := by
  interval_cases a <;> interval_cases b <;> simp_all [decChar]

theorem map_decChar_inj : ∀ (l₁ l₂ : List Nat),
    (∀ d ∈ l₁, d < 10) → (∀ d ∈ l₂, d < 10) →
    l₁.map decChar = l₂.map decChar → l₁ = l₂ := by
  intro l₁
  induction l₁ with
  | nil => intro l₂ _ _ h; cases l₂ <;> simp_all
  | cons a as ih =>
    intro l₂ h₁ h₂ h
    cases l₂ with
    | nil => simp at h
    | cons b bs =>
      simp only [List.map_cons, List.cons.injEq] at h
      have hab : a = b := decChar_inj (h₁ a (by simp)) (h₂ b (by simp)) h.1
      have := ih bs (fun d hd => h₁ d (by simp [hd])) (fun d hd => h₂ d (by simp [hd])) h.2
      simp [hab, this]

theorem u64_to_string_injective : Function.Injective u64_to_string := by
  intro a b h
  unfold u64_to_string at h
  by_cases ha : a = 0 <;> by_cases hb : b = 0
  · omega
  · rw [if_pos ha, if_neg hb] at h
    exfalso
    have hd : (decDigits b).reverse.map decChar = ['0'] := by
      have := congrArg String.data h
      simpa using this.symm
    have : (decDigits b).reverse = [0] := by
      apply map_decChar_inj _ _ (fun d hd => decAux_lt_ten _ _ _ (List.mem_reverse.mp hd))
        (by simp) (by simpa [decChar] using hd)
    have hb0 : decDigits b = [0] := by
      have := congrArg List.reverse this
      simpa using this
    have := undigits_decDigits b
    rw [hb0] at this
    simp [undigits] at this
    omega
  · rw [if_neg ha, if_pos hb] at h
    exfalso
    have hd : (decDigits a).reverse.map decChar = ['0'] := by
      have := congrArg String.data h
      simpa using this
    have : (decDigits a).reverse = [0] := by
      apply map_decChar_inj _ _ (fun d hd => decAux_lt_ten _ _ _ (List.mem_reverse.mp hd))
        (by simp) (by simpa [decChar] using hd)
    have ha0 : decDigits a = [0] := by
      have := congrArg List.reverse this
      simpa using this
    have := undigits_decDigits a
    rw [ha0] at this
    simp [undigits] at this
    omega
  · rw [if_neg ha, if_neg hb] at h
    have hdata := congrArg String.data h
    simp only [String.mk] at hdata
    have hrev : (decDigits a).reverse = (decDigits b).reverse := by
      apply map_decChar_inj _ _
        (fun d hd => decAux_lt_ten _ _ _ (List.mem_reverse.mp hd))
        (fun d hd => decAux_lt_ten _ _ _ (List.mem_reverse.mp hd))
      exact hdata
    have : decDigits a = decDigits b := by
      have := congrArg List.reverse hrev
      simpa using this
    exact decDigits_injective this

/-! ## Artifact classification (`scan_collectables` kind logic) -/

inductive Kind where
  | unknown
  | binaryManifest
  | jsonManifest
  | log
  | package
deriving DecidableEq, Repr

structure Collectable where
  kind : Kind
  uri : String
  sha256sum : String
deriving DecidableEq, Repr

/-- Embedding of Rust `str::ends_with` with a string pattern. -/
def strEndsWith (s pat : String) : Bool := pat.data.isSuffixOf s.data

/-- The kind assignment of `scan_collectables`: start from `Unknown`, then the
`if`/`else if` chain over filename suffixes. -/
def classifyKind (file_name : String) : Kind :=
  if strEndsWith file_name ".bin" then .binaryManifest
  else if strEndsWith file_name ".jsonc" then .jsonManifest
  else if strEndsWith file_name ".log.gz" then .log
  else if strEndsWith file_name ".stone" then .package
  else .unknown

theorem isPrefixOf_append_of_le {α : Type} [BEq α] :
    ∀ (x y z : List α), x.length ≤ y.length →
      x.isPrefixOf (y ++ z) = x.isPrefixOf y := by
  intro x
  induction x with
  | nil => intro y z _; simp [List.isPrefixOf]
  | cons a as ih =>
    intro y z h
    cases y with
    | nil => simp at h
    | cons b bs =>
      simp only [List.cons_append, List.isPrefixOf]
      rw [List.append_eq, ih bs z (by simpa using h)]

theorem endsWith_append_right (a t : List Char) (p : String)
    (h : p.data.length ≤ t.length) :
    strEndsWith (String.mk (a ++ t)) p = strEndsWith (String.mk t) p := by
  show (p.data.reverse.isPrefixOf (a ++ t).reverse) = (p.data.reverse.isPrefixOf t.reverse)
  rw [List.reverse_append]
  exact isPrefixOf_append_of_le _ _ _ (by simpa using h)

theorem isPrefixOf_head {α : Type} [BEq α] [LawfulBEq α] (x : α) (xs l : List α)
    (h : (x :: xs).isPrefixOf l = true) : l.head? = some x := by
  cases l with
  | nil => simp [List.isPrefixOf] at h
  | cons b bs =>
    simp only [List.isPrefixOf, Bool.and_eq_true, beq_iff_eq] at h
    simp [h.1]

theorem lastChar_of_endsWith (s p : String) (c : Char) (cs : List Char)
    (hrev : p.data.reverse = c :: cs) (h : strEndsWith s p = true) :
    s.data.reverse.head? = some c := by
  unfold strEndsWith List.isSuffixOf at h
  rw [hrev] at h
  exact isPrefixOf_head _ _ _ h

/-! ## SharedMap (crates/service/src/sync.rs)

The Rust type wraps a `HashMap` in a mutex; its map state is modelled as an
association list with at most one live binding per key (the standard
observational model of `HashMap::insert` / `HashMap::remove`). -/

structure SharedMap (K V : Type) where
  entries : List (K × V)

def lookupKey {K V : Type} [DecidableEq K] : List (K × V) → K → Option V
  | [], _ => none
  | (k', v) :: rest, k => if k' = k then some v else lookupKey rest k

def eraseKey {K V : Type} [DecidableEq K] (m : List (K × V)) (k : K) : List (K × V) :=
  m.filter fun e => decide (e.1 ≠ k)

def SharedMap.lookup {K V : Type} [DecidableEq K] (m : SharedMap K V) (k : K) : Option V :=
  lookupKey m.entries k

/-- Model of `SharedMap::insert`: `HashMap::insert` stores the value,
replacing any previous binding of the key. -/
def SharedMap.insert {K V : Type} [DecidableEq K] (m : SharedMap K V) (k : K) (v : V) :
    SharedMap K V :=
  ⟨(k, v) :: eraseKey m.entries k⟩

/-- Model of `SharedMap::remove`: `HashMap::remove` drops the binding and
returns the previous value if the key was present. -/
def SharedMap.remove {K V : Type} [DecidableEq K] (m : SharedMap K V) (k : K) :
    Option V × SharedMap K V :=
  (lookupKey m.entries k, ⟨eraseKey m.entries k⟩)

theorem lookupKey_eraseKey_self {K V : Type} [DecidableEq K]
    (m : List (K × V)) (k : K) : lookupKey (eraseKey m k) k = none := by
  induction m with
  | nil => rfl
  | cons e rest ih =>
    by_cases h : e.1 = k
    · simpa [eraseKey, h] using ih
    · obtain ⟨k', v⟩ := e
      simp only [] at h
      simpa [eraseKey, List.filter, h, lookupKey] using ih

theorem lookupKey_eraseKey_ne {K V : Type} [DecidableEq K]
    (m : List (K × V)) (k k' : K) (hne : k' ≠ k) :
    lookupKey (eraseKey m k) k' = lookupKey m k' := by
  induction m with
  | nil => rfl
  | cons e rest ih =>
    obtain ⟨a, v⟩ := e
    by_cases h : a = k
    · subst h
      simpa [eraseKey, List.filter, lookupKey, Ne.symm hne] using ih
    · by_cases h' : a = k'
      · simp [eraseKey, List.filter, h, lookupKey, h', hne]
      · simpa [eraseKey, List.filter, h, lookupKey, h'] using ih

/-! ## profile::remote::create (crates/summit/src/profile/remote.rs) -/

structure Remote where
  name : String
  index_uri : String
  priority : Nat
deriving DecidableEq, Repr

/-- The row inserted into table `profile_remote`; SQLite integer columns are
signed 64-bit, and the code binds `priority as i64`. -/
structure ProfileRemoteRow where
  profile_id : Int
  index_uri : String
  name : String
  priority : Int
deriving DecidableEq, Repr

/-- Rust `u64 as i64`: bitwise reinterpretation, i.e. the value modulo
`2 ^ 64` mapped into `[-2 ^ 63, 2 ^ 63)`. -/
def u64_as_i64 (n : Nat) : Int :=
  if n < 2 ^ 63 then (n : Int) else (n : Int) - 2 ^ 64

/-- Embedding of `profile::remote::create`: the inserted row together with the
returned `Remote` value. -/
def remote_create (profile_id : Int) (index_uri : String) (name : String)
    (priority : Nat) : ProfileRemoteRow × Remote :=
  ({ profile_id := profile_id
     index_uri := index_uri
     name := name
     priority := u64_as_i64 priority },
   { name := name, index_uri := index_uri, priority := priority })

/-! ## Directory lifecycle helpers on an abstract filesystem

A filesystem is the list of existing directory paths; a real filesystem is
prefix-closed (every ancestor of an existing path exists). -/

abbrev FsTree := List Path

/-- `Path::exists`. -/
def path_exists (fs : FsTree) (p : Path) : Bool := fs.contains p

/-- `fs::remove_dir_all`: removes the path and everything under it. -/
def remove_dir_all (fs : FsTree) (p : Path) : FsTree :=
  fs.filter fun q => !(p.isPrefixOf q)

/-- All prefixes of a path (the path itself and its ancestors). -/
def ancestors : Path → List Path
  | [] => [[]]
  | c :: rest => [] :: (ancestors rest).map (c :: ·)

/-- `fs::create_dir_all`: creates the path and all missing ancestors. -/
def create_dir_all (fs : FsTree) (p : Path) : FsTree := fs ++ ancestors p

/-- `ensure_dir_exists` from build.rs. -/
def ensure_dir_exists (fs : FsTree) (p : Path) : FsTree := create_dir_all fs p

/-- `recreate_dir` from build.rs: remove recursively if present, then create. -/
def recreate_dir (fs : FsTree) (p : Path) : FsTree :=
  create_dir_all (if path_exists fs p then remove_dir_all fs p else fs) p

/-- The path exists and has no entries strictly below it. -/
def dirEmpty (fs : FsTree) (p : Path) : Prop :=
  p ∈ fs ∧ ∀ q ∈ fs, p.isPrefixOf q = true → q = p

/-- Prefix-closure: every ancestor of an existing path exists. -/
def fsClosed (fs : FsTree) : Prop :=
  ∀ q ∈ fs, ∀ r ∈ ancestors q, r ∈ fs

/-! ## Build pipeline (crates/avalanche/src/build.rs) -/

structure PackageBuild where
  build_id : Nat
  uri : String
  commit_ref : String
  relative_path : String
  remotes : List Remote

structure State where
  cache_dir : Path
  state_dir : Path
  root : Path

structure Config where
  host_address : String

/-- The data of a successfully parsed `http::Uri` that the pipeline uses. -/
structure UriParts where
  path : String
  display : String

/-- Oracle environment: the outcome of every fallible external call the
pipeline makes (URI parsing, filesystem, git, the builder subprocess,
compression, digesting). -/
structure Env where
  parseUri : Option UriParts
  ensureMirrorParentOk : Bool
  recreateWorkOk : Bool
  ensureWorktreeOk : Bool
  recreateAssetOk : Bool
  mirrorDirExists : Bool
  remoteUpdateOk : Bool
  mirrorCloneOk : Bool
  checkoutOk : Bool
  configWriteOk : Bool
  createLogOk : Bool
  builderOk : Bool
  builderOutputs : List String
  compressOk : Bool
  readDirOk : Bool
  decodable : String → Bool
  assetUriParseOk : String → Bool
  shaOk : String → Bool
  sha256 : String → String
  removeWorktreeOk : Bool

/-- A filesystem / subprocess operation attempted by the pipeline. -/
inductive FsOp where
  | ensureDir (p : Path)
  | recreateDir (p : Path)
  | gitUpdate (mirror : Path)
  | gitClone (uri : String) (mirror : Path)
  | gitCheckout (mirror worktree : Path) (commit_ref : String)
  | writeConfig (p : Path)
  | createLogFile (p : Path)
  | runBuilder (asset worktree : Path) (relative_path : String)
  | compress (p : Path)
  | readAssets (p : Path)
  | gitRemoveWorktree (mirror worktree : Path)
deriving DecidableEq, Repr

/-- The error cause of each early-exit in `run` (`context` labels). -/
inductive RunError where
  | invalidUri
  | malformedUri
  | createMirrorParent
  | recreateWork
  | createWorktreeDir
  | recreateAsset
  | gitRemoteUpdate
  | gitMirror
  | checkout
  | boulderConfig
  | compressLog
  | scanFailed
  | removeWorktree
deriving DecidableEq, Repr

/-- Failure of `build_recipe`, captured with `.err()` instead of `?`. -/
inductive RecipeError where
  | createLogFile
  | builder
deriving DecidableEq, Repr

/-- Strip the leading path separator, as `uri.path().strip_prefix("/")`. -/
def stripSlash (s : String) : Option String :=
  match s.data with
  | '/' :: rest => some (String.mk rest)
  | _ => none

def workDirOf (st : State) : Path := st.state_dir ++ ["work"]

def worktreeDirOf (st : State) : Path := workDirOf st ++ ["source"]

def assetDirOf (st : State) (build_id : Nat) : Path :=
  st.root ++ ["assets", u64_to_string build_id]

def boulderConfigPath (work_dir : Path) : Path :=
  work_dir ++ ["etc", "boulder", "profile.d", "avalanche.yaml"]

/-- `build_recipe`: create the log file, then run the builder subprocess with
output redirected into it.  Returns the attempted operations, the captured
error if any, and the asset-dir contents afterwards (the log file plus
whatever the builder wrote, also on a failed build). -/
def build_recipe (env : Env) (asset_dir worktree_dir : Path) (relative_path : String)
    (log_file : Path) : List FsOp × Option RecipeError × List String :=
  if env.createLogOk then
    ([.createLogFile log_file, .runBuilder asset_dir worktree_dir relative_path],
     if env.builderOk then none else some .builder,
     "build.log" :: env.builderOutputs)
  else
    ([.createLogFile log_file], some .createLogFile, [])

/-- Asset-dir contents after `compress_file` succeeds: the plain log is
removed and the gzipped sibling is created. -/
def compress_result (files : List String) : List String :=
  files.erase "build.log" ++ ["build.log.gz"]

/-- The public asset URI string:
`format!("{host_address}assets/{build_id}/{file_name}")`. -/
def mkAssetUri (host_address : String) (build_id : Nat) (file_name : String) : String :=
  host_address ++ "assets/" ++ u64_to_string build_id ++ "/" ++ file_name

/-- `scan_collectables` over the asset-dir entries: skip undecodable names,
classify by suffix, build the public URI (abort on parse failure), hash
(abort on failure). -/
def scan_collectables (env : Env) (build_id : Nat) (host_address : String) :
    List String → Option (List Collectable)
  | [] => some []
  | f :: rest =>
    if env.decodable f then
      if env.assetUriParseOk (mkAssetUri host_address build_id f) then
        if env.shaOk f then
          (scan_collectables env build_id host_address rest).map
            fun cs =>
              { kind := classifyKind f
                uri := mkAssetUri host_address build_id f
                sha256sum := env.sha256 f } :: cs
        else none
      else none
    else scan_collectables env build_id host_address rest

/-- Run `ops`, then continue with `next` if `ok`, else abort with `e`
(the `?` operator): the attempted operations are recorded either way. -/
def andThen {α : Type} (ok : Bool) (e : RunError) (ops : List FsOp)
    (next : Except RunError α × List FsOp) : Except RunError α × List FsOp :=
  if ok then (next.1, ops ++ next.2) else (Except.error e, ops)

/-- Prepend already-performed operations to a continuation. -/
def withOps {α : Type} (ops : List FsOp) (next : Except RunError α × List FsOp) :
    Except RunError α × List FsOp :=
  (next.1, ops ++ next.2)

/-- Embedding of `run`: the pipeline result (`Result<(Option<Report>,
Vec<Collectable>)>`) together with the ordered trace of attempted
filesystem/subprocess operations. -/
def run (request : PackageBuild) (st : State) (config : Config) (env : Env) :
    Except RunError (Option RecipeError × List Collectable) × List FsOp :=
  match env.parseUri with
  | none => (Except.error .invalidUri, [])
  | some uri =>
    match stripSlash uri.path with
    | none => (Except.error .malformedUri, [])
    | some rest =>
      let mirror_dir := joinStr st.cache_dir rest
      let work_dir := workDirOf st
      let worktree_dir := worktreeDirOf st
      let asset_dir := assetDirOf st request.build_id
      let log_file := asset_dir ++ ["build.log"]
      let recipe := build_recipe env asset_dir worktree_dir request.relative_path log_file
      let afterBuild :=
        withOps recipe.1 <|
          andThen (recipe.2.2.contains "build.log" && env.compressOk) .compressLog
            [.compress log_file] <|
            andThen env.readDirOk .scanFailed [.readAssets asset_dir] <|
              match scan_collectables env request.build_id config.host_address
                  (compress_result recipe.2.2) with
              | none => (Except.error .scanFailed, [])
              | some cs =>
                andThen env.removeWorktreeOk .removeWorktree
                  [.gitRemoveWorktree mirror_dir worktree_dir]
                  (Except.ok (recipe.2.1, cs), [])
      let step5 := andThen env.configWriteOk .boulderConfig
        [.writeConfig (boulderConfigPath work_dir)] afterBuild
      let step4 := andThen env.checkoutOk .checkout
        [.gitCheckout mirror_dir worktree_dir request.commit_ref] step5
      let step3 :=
        if env.mirrorDirExists then
          andThen env.remoteUpdateOk .gitRemoteUpdate [.gitUpdate mirror_dir] step4
        else
          andThen env.mirrorCloneOk .gitMirror [.gitClone uri.display mirror_dir] step4
      let step2c := andThen env.recreateAssetOk .recreateAsset [.recreateDir asset_dir] step3
      let step2b := andThen env.ensureWorktreeOk .createWorktreeDir
        [.ensureDir worktree_dir] step2c
      let step2a := andThen env.recreateWorkOk .recreateWork [.recreateDir work_dir] step2b
      match pathParent mirror_dir with
      | none => step2a
      | some parent =>
        andThen env.ensureMirrorParentOk .createMirrorParent [.ensureDir parent] step2a

/-- The outcome message the status reporter sends for one build task. -/
inductive Report where
  | succeeded (task_id : Nat) (collectables : List Collectable)
  | failed (task_id : Nat) (collectables : List Collectable)
deriving DecidableEq, Repr

/-- Embedding of `build`: wrap the pipeline result into the outcome message. -/
def build (request : PackageBuild) (st : State) (config : Config) (env : Env) : Report :=
  match (run request st config env).1 with
  | .ok (none, collectables) => .succeeded request.build_id collectables
  | .ok (some _, collectables) => .failed request.build_id collectables
  | .error _ => .failed request.build_id []

/-- Is this operation the step-3 mirror synchronization? -/
def isSyncOp : FsOp → Bool
  | .gitUpdate _ => true
  | .gitClone _ _ => true
  | _ => false

/-! ## Concrete fixtures used by witnesses and counterexamples -/

def st0 : State := { cache_dir := ["cache"], state_dir := ["state"], root := ["root"] }

def cfg0 : Config := { host_address := "https://w/" }

def uri0 : UriParts := { path := "/r.git", display := "https://g/r.git" }

def env0 : Env where
  parseUri := some uri0
  ensureMirrorParentOk := true
  recreateWorkOk := true
  ensureWorktreeOk := true
  recreateAssetOk := true
  mirrorDirExists := false
  remoteUpdateOk := true
  mirrorCloneOk := true
  checkoutOk := true
  configWriteOk := true
  createLogOk := true
  builderOk := true
  builderOutputs := ["pkg.stone"]
  compressOk := true
  readDirOk := true
  decodable := fun _ => true
  assetUriParseOk := fun _ => true
  shaOk := fun _ => true
  sha256 := fun _ => "aa"
  removeWorktreeOk := true

def req0 (id : Nat) : PackageBuild :=
  { build_id := id, uri := "https://g/r.git", commit_ref := "c", relative_path := "p",
    remotes := [] }

/-! ## Prefix lemmas for the filesystem model -/

theorem prefixOf_refl (l : Path) : l.isPrefixOf l = true := by
  induction l with
  | nil => rfl
  | cons a as ih => simp [List.isPrefixOf, ih]

theorem prefixOf_antisymm : ∀ x y : Path,
    x.isPrefixOf y = true → y.isPrefixOf x = true → x = y := by
  intro x
  induction x with
  | nil =>
    intro y _ h2
    cases y with
    | nil => rfl
    | cons b bs => simp [List.isPrefixOf] at h2
  | cons a as ih =>
    intro y h1 h2
    cases y with
    | nil => simp [List.isPrefixOf] at h1
    | cons b bs =>
      simp only [List.isPrefixOf, Bool.and_eq_true, beq_iff_eq] at h1 h2
      rw [h1.1, ih bs h1.2 h2.2]

theorem mem_ancestors : ∀ q r : Path, r ∈ ancestors q ↔ r.isPrefixOf q = true := by
  intro q
  induction q with
  | nil =>
    intro r
    cases r with
    | nil => simp [ancestors, List.isPrefixOf]
    | cons c cs => simp [ancestors, List.isPrefixOf]
  | cons c rest ih =>
    intro r
    cases r with
    | nil => simp [ancestors, List.isPrefixOf]
    | cons d ds =>
      simp only [ancestors, List.mem_cons, List.mem_map, List.isPrefixOf,
        Bool.and_eq_true, beq_iff_eq]
      constructor
      · rintro (h | ⟨x, hx, hxd⟩)
        · exact absurd h (by simp)
        · injection hxd with hcd hx2
          exact ⟨hcd.symm, (ih ds).mp (hx2 ▸ hx)⟩
      · rintro ⟨rfl, h⟩
        exact Or.inr ⟨ds, (ih ds).mpr h, rfl⟩

theorem path_exists_iff (fs : FsTree) (p : Path) : path_exists fs p = true ↔ p ∈ fs := by
  simp [path_exists, List.contains, List.elem_iff]

theorem dirEmpty_recreate_of_exists (fs : FsTree) (p : Path)
    (h : path_exists fs p = true) : dirEmpty (recreate_dir fs p) p := by
  unfold recreate_dir
  rw [if_pos h]
  unfold create_dir_all remove_dir_all
  constructor
  · exact List.mem_append_right _ ((mem_ancestors p p).mpr (prefixOf_refl p))
  · intro q hq hpq
    rcases List.mem_append.mp hq with h1 | h2
    · have hfilter := (List.mem_filter.mp h1).2
      rw [hpq] at hfilter
      simp at hfilter
    · exact prefixOf_antisymm q p ((mem_ancestors p q).mp h2) hpq

/-- Claim C8: `recreate_dir(path)` removes the path recursively if it exists
and then creates it, so on success the path is an empty directory; running it
twice in a row yields an empty directory after each call. -/
theorem recreate_dir_empty_idempotent (fs : FsTree) (p : Path) (hwf : fsClosed fs) :
    dirEmpty (recreate_dir fs p) p ∧ dirEmpty (recreate_dir (recreate_dir fs p) p) p := by
  have first : dirEmpty (recreate_dir fs p) p := by
    cases hex : path_exists fs p with
    | true => exact dirEmpty_recreate_of_exists fs p hex
    | false =>
      unfold recreate_dir
      rw [if_neg (by simp [hex])]
      unfold create_dir_all
      constructor
      · exact List.mem_append_right _ ((mem_ancestors p p).mpr (prefixOf_refl p))
      · intro q hq hpq
        rcases List.mem_append.mp hq with h1 | h2
        · exfalso
          have hpfs : p ∈ fs := hwf q h1 p ((mem_ancestors q p).mpr hpq)
          have := (path_exists_iff fs p).mpr hpfs
          rw [hex] at this
          exact Bool.false_ne_true this
        · exact prefixOf_antisymm q p ((mem_ancestors p q).mp h2) hpq
  exact ⟨first, dirEmpty_recreate_of_exists _ p ((path_exists_iff _ p).mpr first.1)⟩

/-- Witness for C8 at a concrete prefix-closed filesystem. -/
theorem recreate_dir_empty_idempotent_witness :
    dirEmpty (recreate_dir [[], ["a"], ["a", "b"], ["c"]] ["a"]) ["a"]
    ∧ dirEmpty (recreate_dir (recreate_dir [[], ["a"], ["a", "b"], ["c"]] ["a"]) ["a"]) ["a"] :=
  recreate_dir_empty_idempotent [[], ["a"], ["a", "b"], ["c"]] ["a"]
    (by unfold fsClosed; decide)

/-- Claim C9: `SharedMap::insert` stores the value, overwriting any existing
entry for the key and leaving other keys unchanged; `SharedMap::remove`
removes the entry and returns the previously stored value if the key was
present, `none` otherwise. -/
theorem sharedMap_contract {K V : Type} [DecidableEq K]
    (m : SharedMap K V) (k : K) (v : V) :
    (m.insert k v).lookup k = some v
    ∧ (∀ k', k' ≠ k → (m.insert k v).lookup k' = m.lookup k')
    ∧ (m.remove k).1 = m.lookup k
    ∧ (m.remove k).2.lookup k = none
    ∧ (∀ k', k' ≠ k → (m.remove k).2.lookup k' = m.lookup k') := by
  refine ⟨by simp [SharedMap.insert, SharedMap.lookup, lookupKey], ?_, rfl, ?_, ?_⟩
  · intro k' h
    show lookupKey ((k, v) :: eraseKey m.entries k) k' = lookupKey m.entries k'
    rw [lookupKey, if_neg (Ne.symm h)]
    exact lookupKey_eraseKey_ne m.entries k k' h
  · exact lookupKey_eraseKey_self m.entries k
  · intro k' h
    exact lookupKey_eraseKey_ne m.entries k k' h

/-- Witness for C9 on a concrete two-entry map. -/
theorem sharedMap_contract_witness :
    ((SharedMap.mk [(1, 10), (2, 20)] : SharedMap Nat Nat).insert 1 5).lookup 1 = some 5
    ∧ ((SharedMap.mk [(1, 10), (2, 20)] : SharedMap Nat Nat).insert 1 5).lookup 2 = some 20
    ∧ ((SharedMap.mk [(1, 10), (2, 20)] : SharedMap Nat Nat).remove 1).1 = some 10
    ∧ ((SharedMap.mk [(1, 10), (2, 20)] : SharedMap Nat Nat).remove 1).2.lookup 1 = none := by
  have h := sharedMap_contract (SharedMap.mk [(1, 10), (2, 20)] : SharedMap Nat Nat) 1 5
  exact ⟨h.1, (h.2.1 2 (by decide)).trans (by decide), h.2.2.1.trans (by decide), h.2.2.2.1⟩

/-- Claim C10: `profile::remote::create` returns a `Remote` whose fields equal
the arguments exactly, while the inserted row stores the priority cast with
`as i64` (reinterpretation modulo two to the 64th); for priorities at or above
two to the 63rd the returned and persisted values differ. -/
theorem remote_create_roundtrip (profile_id : Int) (index_uri name : String)
    (priority : Nat) (hp : priority < 2 ^ 64) :
    (remote_create profile_id index_uri name priority).2 =
      { name := name, index_uri := index_uri, priority := priority }
    ∧ (remote_create profile_id index_uri name priority).1.profile_id = profile_id
    ∧ (remote_create profile_id index_uri name priority).1.index_uri = index_uri
    ∧ (remote_create profile_id index_uri name priority).1.name = name
    ∧ (remote_create profile_id index_uri name priority).1.priority = u64_as_i64 priority
    ∧ (2 ^ 63 ≤ priority →
        (remote_create profile_id index_uri name priority).1.priority ≠ (priority : Int)) := by
  refine ⟨rfl, rfl, rfl, rfl, rfl, ?_⟩
  intro h
  show u64_as_i64 priority ≠ (priority : Int)
  unfold u64_as_i64
  rw [if_neg (by omega)]
  intro hEq
  omega

/-- Witness for C10 at the smallest wrapping priority. -/
theorem remote_create_roundtrip_witness :
    (remote_create 1 "https://idx/" "volatile" (2 ^ 63)).2 =
      { name := "volatile", index_uri := "https://idx/", priority := 2 ^ 63 }
    ∧ (remote_create 1 "https://idx/" "volatile" (2 ^ 63)).1.priority ≠ ((2 ^ 63 : Nat) : Int) := by
  have h := remote_create_roundtrip 1 "https://idx/" "volatile" (2 ^ 63) (by norm_num)
  exact ⟨h.1, h.2.2.2.2.2 (by norm_num)⟩

theorem strEndsWith_exclusive (f p q : String) (c d : Char) (cs ds : List Char)
    (hp : p.data.reverse = c :: cs) (hq : q.data.reverse = d :: ds) (hne : c ≠ d) :
    ¬(strEndsWith f p = true ∧ strEndsWith f q = true) := by
  rintro ⟨h1, h2⟩
  have a1 := lastChar_of_endsWith f p c cs hp h1
  have a2 := lastChar_of_endsWith f q d ds hq h2
  rw [a1] at a2
  exact hne (Option.some.inj a2)

/-- Claim C6: artifact classification is a pure function of the filename
suffix alone (a common suffix of length at least 7, the longest pattern,
determines the kind), the patterns are matched in the order `.bin`,
`.jsonc`, `.log.gz`, `.stone` (mutually exclusive, since their final
characters differ), and every other decodable filename is `Unknown`. -/
theorem classify_suffix_spec :
    (∀ a b t : List Char, 7 ≤ t.length →
      classifyKind (String.mk (a ++ t)) = classifyKind (String.mk (b ++ t)))
    ∧ (∀ f : String,
        (classifyKind f = Kind.binaryManifest ↔ strEndsWith f ".bin" = true)
        ∧ (classifyKind f = Kind.jsonManifest ↔ strEndsWith f ".jsonc" = true)
        ∧ (classifyKind f = Kind.log ↔ strEndsWith f ".log.gz" = true)
        ∧ (classifyKind f = Kind.package ↔ strEndsWith f ".stone" = true)
        ∧ (classifyKind f = Kind.unknown ↔
            strEndsWith f ".bin" = false ∧ strEndsWith f ".jsonc" = false
            ∧ strEndsWith f ".log.gz" = false ∧ strEndsWith f ".stone" = false))
    ∧ classifyKind "foo.stone" = Kind.package
    ∧ classifyKind "bar.jsonc" = Kind.jsonManifest
    ∧ classifyKind "baz.bin" = Kind.binaryManifest
    ∧ classifyKind "build.log.gz" = Kind.log
    ∧ classifyKind "readme.txt" = Kind.unknown := by
  refine ⟨?_, ?_, by decide, by decide, by decide, by decide, by decide⟩
  · intro a b t ht
    unfold classifyKind
    rw [endsWith_append_right a t ".bin" (le_trans (by decide) ht),
      endsWith_append_right b t ".bin" (le_trans (by decide) ht),
      endsWith_append_right a t ".jsonc" (le_trans (by decide) ht),
      endsWith_append_right b t ".jsonc" (le_trans (by decide) ht),
      endsWith_append_right a t ".log.gz" (le_trans (by decide) ht),
      endsWith_append_right b t ".log.gz" (le_trans (by decide) ht),
      endsWith_append_right a t ".stone" (le_trans (by decide) ht),
      endsWith_append_right b t ".stone" (le_trans (by decide) ht)]
  · intro f
    have exBJ := strEndsWith_exclusive f ".bin" ".jsonc" 'n' 'c' ['i', 'b', '.']
      ['n', 'o', 's', 'j', '.'] (by decide) (by decide) (by decide)
    have exBL := strEndsWith_exclusive f ".bin" ".log.gz" 'n' 'z' ['i', 'b', '.']
      ['g', '.', 'g', 'o', 'l', '.'] (by decide) (by decide) (by decide)
    have exBS := strEndsWith_exclusive f ".bin" ".stone" 'n' 'e' ['i', 'b', '.']
      ['n', 'o', 't', 's', '.'] (by decide) (by decide) (by decide)
    have exJL := strEndsWith_exclusive f ".jsonc" ".log.gz" 'c' 'z' ['n', 'o', 's', 'j', '.']
      ['g', '.', 'g', 'o', 'l', '.'] (by decide) (by decide) (by decide)
    have exJS := strEndsWith_exclusive f ".jsonc" ".stone" 'c' 'e' ['n', 'o', 's', 'j', '.']
      ['n', 'o', 't', 's', '.'] (by decide) (by decide) (by decide)
    have exLS := strEndsWith_exclusive f ".log.gz" ".stone" 'z' 'e' ['g', '.', 'g', 'o', 'l', '.']
      ['n', 'o', 't', 's', '.'] (by decide) (by decide) (by decide)
    rcases hb : strEndsWith f ".bin" <;> rcases hj : strEndsWith f ".jsonc" <;>
      rcases hl : strEndsWith f ".log.gz" <;> rcases hs : strEndsWith f ".stone" <;>
      first
        | exact (exBJ ⟨hb, hj⟩).elim
        | exact (exBL ⟨hb, hl⟩).elim
        | exact (exBS ⟨hb, hs⟩).elim
        | exact (exJL ⟨hj, hl⟩).elim
        | exact (exJS ⟨hj, hs⟩).elim
        | exact (exLS ⟨hl, hs⟩).elim
        | simp [classifyKind, hb, hj, hl, hs]

/-- Witness for C6 applying the suffix-purity part at concrete strings. -/
theorem classify_suffix_spec_witness :
    classifyKind (String.mk (['x'] ++ ['.', 'b', 'i', 'n', '.', 'g', 'z'])) =
      classifyKind (String.mk (['y', 'z'] ++ ['.', 'b', 'i', 'n', '.', 'g', 'z']))
    ∧ (classifyKind "a.stone" = Kind.package ↔ strEndsWith "a.stone" ".stone" = true) :=
  ⟨classify_suffix_spec.1 ['x'] ['y', 'z'] ['.', 'b', 'i', 'n', '.', 'g', 'z'] (by decide),
   (classify_suffix_spec.2.1 "a.stone").2.2.2.1⟩

end AerynOS
namespace AerynOS

/-- Every decodable file in a successfully scanned directory contributes its
classified, addressed and hashed collectable. -/
theorem scan_collectables_mem (env : Env) (id : Nat) (host : String) :
    ∀ (files : List String) (cs : List Collectable) (f : String),
      scan_collectables env id host files = some cs → f ∈ files → env.decodable f = true →
      ({ kind := classifyKind f, uri := mkAssetUri host id f,
         sha256sum := env.sha256 f } : Collectable) ∈ cs := by
  intro files
  induction files with
  | nil => intro cs f _ hf _; exact absurd hf (List.not_mem_nil f)
  | cons g rest ih =>
    intro cs f hscan hf hdec
    rw [scan_collectables] at hscan
    rcases List.mem_cons.mp hf with rfl | hf2
    · rw [if_pos hdec] at hscan
      cases hu : env.assetUriParseOk (mkAssetUri host id f) with
      | false => rw [if_neg (by simp [hu])] at hscan; exact absurd hscan (by simp)
      | true =>
        rw [if_pos hu] at hscan
        cases hsha : env.shaOk f with
        | false => rw [if_neg (by simp [hsha])] at hscan; exact absurd hscan (by simp)
        | true =>
          rw [if_pos hsha] at hscan
          rcases Option.map_eq_some'.mp hscan with ⟨cs', hcs', hcons⟩
          rw [← hcons]
          exact List.mem_cons_self _ _
    · cases hd : env.decodable g with
      | false =>
        rw [if_neg (by simp [hd])] at hscan
        exact ih cs f hscan hf2 hdec
      | true =>
        rw [if_pos hd] at hscan
        cases hu : env.assetUriParseOk (mkAssetUri host id g) with
        | false => rw [if_neg (by simp [hu])] at hscan; exact absurd hscan (by simp)
        | true =>
          rw [if_pos hu] at hscan
          cases hsha : env.shaOk g with
          | false => rw [if_neg (by simp [hsha])] at hscan; exact absurd hscan (by simp)
          | true =>
            rw [if_pos hsha] at hscan
            rcases Option.map_eq_some'.mp hscan with ⟨cs', hcs', hcons⟩
            rw [← hcons]
            exact List.mem_cons_of_mem _ (ih cs' f hcs' hf2 hdec)

/-- Claim C1: when the pipeline reaches step 6 and the builder subprocess
fails, the failure is captured but does not abort the pipeline: log
compression and the artifact scan still run, and the outcome is a Failed
report carrying the collectables actually produced, including the compressed
log artifact. -/
theorem build_cmd_failure_nonfatal
    (request : PackageBuild) (st : State) (config : Config) (env : Env)
    (uri : UriParts) (rest : String) (cs : List Collectable)
    (h1 : env.parseUri = some uri) (h2 : stripSlash uri.path = some rest)
    (h3 : env.ensureMirrorParentOk = true) (h4 : env.recreateWorkOk = true)
    (h5 : env.ensureWorktreeOk = true) (h6 : env.recreateAssetOk = true)
    (h7 : env.remoteUpdateOk = true) (h8 : env.mirrorCloneOk = true)
    (h9 : env.checkoutOk = true) (h10 : env.configWriteOk = true)
    (h11 : env.createLogOk = true) (h12 : env.builderOk = false)
    (h13 : env.compressOk = true) (h14 : env.readDirOk = true)
    (h15 : scan_collectables env request.build_id config.host_address
             (compress_result ("build.log" :: env.builderOutputs)) = some cs)
    (h16 : env.removeWorktreeOk = true)
    (h17 : env.decodable "build.log.gz" = true) :
    (run request st config env).1 = Except.ok (some RecipeError.builder, cs)
    ∧ build request st config env = Report.failed request.build_id cs
    ∧ FsOp.compress (assetDirOf st request.build_id ++ ["build.log"]) ∈ (run request st config env).2
    ∧ FsOp.readAssets (assetDirOf st request.build_id) ∈ (run request st config env).2
    ∧ ({ kind := Kind.log, uri := mkAssetUri config.host_address request.build_id "build.log.gz",
         sha256sum := env.sha256 "build.log.gz" } : Collectable) ∈ cs := by
  have hmem := scan_collectables_mem env request.build_id config.host_address _ cs
    "build.log.gz" h15 (by simp [compress_result]) h17
  rw [show classifyKind "build.log.gz" = Kind.log by decide] at hmem
  have hrun : (run request st config env).1 = Except.ok (some RecipeError.builder, cs)
      ∧ FsOp.compress (assetDirOf st request.build_id ++ ["build.log"]) ∈ (run request st config env).2
      ∧ FsOp.readAssets (assetDirOf st request.build_id) ∈ (run request st config env).2 := by
    cases hm : env.mirrorDirExists with
    | false =>
      simp [run, h1, h2, hm, h3, h4, h5, h6, h7, h8, h9, h10, h11, h12, h13, h14, h15, h16,
        build_recipe, andThen, withOps, pathParent, joinStr, List.contains]
    | true =>
      simp [run, h1, h2, hm, h3, h4, h5, h6, h7, h8, h9, h10, h11, h12, h13, h14, h15, h16,
        build_recipe, andThen, withOps, pathParent, joinStr, List.contains]
  refine ⟨hrun.1, ?_, hrun.2.1, hrun.2.2, hmem⟩
  simp [build, hrun.1]

/-- Claim C2 (amended): when worktree removal (step 9) fails after a
successful artifact scan, `run` returns the error and the Failed report
carries an empty collectables list -- the step-8 collectables are discarded,
not reported; every pipeline error, in particular any failure in steps 1-5,
likewise yields a Failed report with empty collectables. -/
theorem worktree_cleanup_failure_reports_empty
    (request : PackageBuild) (st : State) (config : Config) (env : Env)
    (uri : UriParts) (rest : String) (cs : List Collectable)
    (h1 : env.parseUri = some uri) (h2 : stripSlash uri.path = some rest)
    (h3 : env.ensureMirrorParentOk = true) (h4 : env.recreateWorkOk = true)
    (h5 : env.ensureWorktreeOk = true) (h6 : env.recreateAssetOk = true)
    (h7 : env.remoteUpdateOk = true) (h8 : env.mirrorCloneOk = true)
    (h9 : env.checkoutOk = true) (h10 : env.configWriteOk = true)
    (h11 : env.createLogOk = true)
    (h13 : env.compressOk = true) (h14 : env.readDirOk = true)
    (h15 : scan_collectables env request.build_id config.host_address
             (compress_result ("build.log" :: env.builderOutputs)) = some cs)
    (h16 : env.removeWorktreeOk = false) :
    (run request st config env).1 = Except.error RunError.removeWorktree
    ∧ build request st config env = Report.failed request.build_id []
    ∧ (∀ (env2 : Env) (e : RunError), (run request st config env2).1 = Except.error e →
        build request st config env2 = Report.failed request.build_id []) := by
  have hrun : (run request st config env).1 = Except.error RunError.removeWorktree := by
    cases hm : env.mirrorDirExists <;> cases hbo : env.builderOk <;>
      simp [run, h1, h2, hm, hbo, h3, h4, h5, h6, h7, h8, h9, h10, h11, h13, h14, h15, h16,
        build_recipe, andThen, withOps, pathParent, joinStr, List.contains]
  refine ⟨hrun, by simp [build, hrun], ?_⟩
  intro env2 e h
  simp [build, h]

/-- Claim C3: if log compression (step 7) fails, the pipeline aborts before
the artifact scan and reports Failed with an empty collectables list, even
when the builder subprocess succeeded (its outputs, in `env.builderOutputs`,
are arbitrary and may contain package artifacts). -/
theorem compress_failure_fatal
    (request : PackageBuild) (st : State) (config : Config) (env : Env)
    (uri : UriParts) (rest : String)
    (h1 : env.parseUri = some uri) (h2 : stripSlash uri.path = some rest)
    (h3 : env.ensureMirrorParentOk = true) (h4 : env.recreateWorkOk = true)
    (h5 : env.ensureWorktreeOk = true) (h6 : env.recreateAssetOk = true)
    (h7 : env.remoteUpdateOk = true) (h8 : env.mirrorCloneOk = true)
    (h9 : env.checkoutOk = true) (h10 : env.configWriteOk = true)
    (h11 : env.createLogOk = true) (h12 : env.builderOk = true)
    (h13 : env.compressOk = false) :
    (run request st config env).1 = Except.error RunError.compressLog
    ∧ build request st config env = Report.failed request.build_id []
    ∧ FsOp.readAssets (assetDirOf st request.build_id) ∉ (run request st config env).2
    ∧ FsOp.runBuilder (assetDirOf st request.build_id) (worktreeDirOf st) request.relative_path
        ∈ (run request st config env).2 := by
  cases hm : env.mirrorDirExists <;>
    refine ⟨?_, ?_, ?_, ?_⟩ <;>
      simp [run, build, h1, h2, hm, h3, h4, h5, h6, h7, h8, h9, h10, h11, h12, h13,
        build_recipe, andThen, withOps, pathParent, joinStr, List.contains]

/-- Claim C5: if the request URI does not parse, or its path lacks a leading
separator, the pipeline errors with an empty operation trace (no directory
created, deleted or modified) and the outcome is Failed with empty
collectables. -/
theorem malformed_uri_aborts_early
    (request : PackageBuild) (st : State) (config : Config) (env : Env) :
    (env.parseUri = none →
      run request st config env = (Except.error RunError.invalidUri, [])
      ∧ build request st config env = Report.failed request.build_id [])
    ∧ (∀ uri : UriParts, env.parseUri = some uri → stripSlash uri.path = none →
      run request st config env = (Except.error RunError.malformedUri, [])
      ∧ build request st config env = Report.failed request.build_id []) := by
  constructor
  · intro h
    exact ⟨by simp [run, h], by simp [build, run, h]⟩
  · intro uri hu hs
    exact ⟨by simp [run, hu, hs], by simp [build, run, hu, hs]⟩

/-- Claim C7: once step 3 is reached, the first (and only) mirror
synchronization operation in the trace is `remote_update(mirror_dir)` when
the mirror directory exists and `mirror(uri, mirror_dir)` otherwise; the
right-hand side depends only on `env.mirrorDirExists`, so on-disk existence
is the sole signal for the create-vs-update decision. -/
theorem mirror_decision_sole_signal
    (request : PackageBuild) (st : State) (config : Config) (env : Env)
    (uri : UriParts) (rest : String)
    (h1 : env.parseUri = some uri) (h2 : stripSlash uri.path = some rest)
    (h3 : env.ensureMirrorParentOk = true) (h4 : env.recreateWorkOk = true)
    (h5 : env.ensureWorktreeOk = true) (h6 : env.recreateAssetOk = true) :
    (run request st config env).2.find? isSyncOp =
      some (if env.mirrorDirExists then FsOp.gitUpdate (joinStr st.cache_dir rest)
            else FsOp.gitClone uri.display (joinStr st.cache_dir rest)) := by
  cases hm : env.mirrorDirExists <;>
    cases hr : env.remoteUpdateOk <;> cases hc : env.mirrorCloneOk <;>
      simp [run, h1, h2, hm, hr, hc, h3, h4, h5, h6, andThen, withOps, pathParent, joinStr,
        List.find?, isSyncOp]

/-- Claim C4 (amended): for two build requests with distinct build ids on the
same ExecutionState, the derived asset directories are distinct (uniquely
keyed by build id), but the work directory is the same `state_dir/work` for
both pipelines -- it is not keyed by build id at all. -/
theorem asset_dir_unique_work_dir_shared
    (st : State) (config : Config) (r₁ r₂ : PackageBuild)
    (h : r₁.build_id ≠ r₂.build_id) :
    assetDirOf st r₁.build_id ≠ assetDirOf st r₂.build_id
    ∧ (∀ (env : Env) (uri : UriParts) (rest : String),
        env.parseUri = some uri → stripSlash uri.path = some rest →
        env.ensureMirrorParentOk = true →
        FsOp.recreateDir (workDirOf st) ∈ (run r₁ st config env).2
        ∧ FsOp.recreateDir (workDirOf st) ∈ (run r₂ st config env).2) := by
  constructor
  · intro heq
    apply h
    apply u64_to_string_injective
    unfold assetDirOf at heq
    have := List.append_cancel_left heq
    simpa using this
  · intro env uri rest hu hs hp
    constructor <;>
      cases hw : env.recreateWorkOk <;>
        simp [run, hu, hs, hp, hw, andThen, withOps, pathParent, joinStr, workDirOf]

/-- Witness for C1 on a concrete failed build. -/
theorem build_cmd_failure_nonfatal_witness :
    build (req0 7) st0 cfg0 { env0 with builderOk := false } =
      Report.failed 7
        [{ kind := Kind.package, uri := "https://w/assets/7/pkg.stone", sha256sum := "aa" },
         { kind := Kind.log, uri := "https://w/assets/7/build.log.gz", sha256sum := "aa" }]
    ∧ ({ kind := Kind.log, uri := "https://w/assets/7/build.log.gz",
         sha256sum := "aa" } : Collectable) ∈
        [{ kind := Kind.package, uri := "https://w/assets/7/pkg.stone", sha256sum := "aa" },
         { kind := Kind.log, uri := "https://w/assets/7/build.log.gz", sha256sum := "aa" }] := by
  have h := build_cmd_failure_nonfatal (req0 7) st0 cfg0 { env0 with builderOk := false }
    uri0 "r.git"
    [{ kind := Kind.package, uri := "https://w/assets/7/pkg.stone", sha256sum := "aa" },
     { kind := Kind.log, uri := "https://w/assets/7/build.log.gz", sha256sum := "aa" }]
    rfl rfl rfl rfl rfl rfl rfl rfl rfl rfl rfl rfl rfl rfl (by decide) rfl rfl
  exact ⟨h.2.1, h.2.2.2.2⟩

/-- Counterexample to claim C2 as stated: a concrete run in which step 8
produced two collectables and step 9 failed, yet the Failed report carries an
empty list rather than the produced collectables. -/
theorem worktree_cleanup_report_counterexample :
    scan_collectables { env0 with removeWorktreeOk := false } 7 cfg0.host_address
        (compress_result ("build.log" :: ["pkg.stone"])) =
      some [{ kind := Kind.package, uri := "https://w/assets/7/pkg.stone", sha256sum := "aa" },
            { kind := Kind.log, uri := "https://w/assets/7/build.log.gz", sha256sum := "aa" }]
    ∧ build (req0 7) st0 cfg0 { env0 with removeWorktreeOk := false } = Report.failed 7 [] := by
  decide

/-- Witness for the amended C2 on a concrete run. -/
theorem worktree_cleanup_failure_reports_empty_witness :
    (run (req0 7) st0 cfg0 { env0 with removeWorktreeOk := false }).1 =
      Except.error RunError.removeWorktree
    ∧ build (req0 7) st0 cfg0 { env0 with removeWorktreeOk := false } = Report.failed 7 [] := by
  have h := worktree_cleanup_failure_reports_empty (req0 7) st0 cfg0
    { env0 with removeWorktreeOk := false } uri0 "r.git"
    [{ kind := Kind.package, uri := "https://w/assets/7/pkg.stone", sha256sum := "aa" },
     { kind := Kind.log, uri := "https://w/assets/7/build.log.gz", sha256sum := "aa" }]
    rfl rfl rfl rfl rfl rfl rfl rfl rfl rfl rfl rfl rfl (by decide) rfl
  exact ⟨h.1, h.2.1⟩

/-- Witness for C3 on a concrete run. -/
theorem compress_failure_fatal_witness :
    (run (req0 7) st0 cfg0 { env0 with compressOk := false }).1 =
      Except.error RunError.compressLog
    ∧ build (req0 7) st0 cfg0 { env0 with compressOk := false } = Report.failed 7 []
    ∧ FsOp.readAssets ["root", "assets", "7"]
        ∉ (run (req0 7) st0 cfg0 { env0 with compressOk := false }).2 := by
  have h := compress_failure_fatal (req0 7) st0 cfg0 { env0 with compressOk := false }
    uri0 "r.git" rfl rfl rfl rfl rfl rfl rfl rfl rfl rfl rfl rfl rfl
  exact ⟨h.1, h.2.1, h.2.2.1⟩

/-- Witness for C5 at a missing and a malformed URI. -/
theorem malformed_uri_aborts_early_witness :
    (run (req0 3) st0 cfg0 { env0 with parseUri := none } =
        (Except.error RunError.invalidUri, [])
      ∧ build (req0 3) st0 cfg0 { env0 with parseUri := none } = Report.failed 3 [])
    ∧ (run (req0 3) st0 cfg0 { env0 with parseUri := some { path := "r.git", display := "d" } } =
        (Except.error RunError.malformedUri, [])
      ∧ build (req0 3) st0 cfg0 { env0 with parseUri := some { path := "r.git", display := "d" } } =
          Report.failed 3 []) :=
  ⟨(malformed_uri_aborts_early (req0 3) st0 cfg0 { env0 with parseUri := none }).1 rfl,
   (malformed_uri_aborts_early (req0 3) st0 cfg0
      { env0 with parseUri := some { path := "r.git", display := "d" } }).2
     { path := "r.git", display := "d" } rfl rfl⟩

/-- Witness for C7 with no pre-existing mirror. -/
theorem mirror_decision_sole_signal_witness :
    (run (req0 7) st0 cfg0 env0).2.find? isSyncOp =
      some (FsOp.gitClone "https://g/r.git" ["cache", "r.git"]) :=
  mirror_decision_sole_signal (req0 7) st0 cfg0 env0 uri0 "r.git" rfl rfl rfl rfl rfl rfl

/-- Counterexample to claim C4 as stated: two requests with distinct build
ids whose pipelines both recreate the same work directory `state/work`. -/
theorem work_dir_collision_counterexample :
    (req0 1).build_id ≠ (req0 2).build_id
    ∧ FsOp.recreateDir ["state", "work"] ∈ (run (req0 1) st0 cfg0 env0).2
    ∧ FsOp.recreateDir ["state", "work"] ∈ (run (req0 2) st0 cfg0 env0).2 := by
  decide

/-- Witness for the amended C4 at build ids 1 and 2. -/
theorem asset_dir_unique_work_dir_shared_witness :
    assetDirOf st0 1 ≠ assetDirOf st0 2
    ∧ FsOp.recreateDir (workDirOf st0) ∈ (run (req0 1) st0 cfg0 env0).2
    ∧ FsOp.recreateDir (workDirOf st0) ∈ (run (req0 2) st0 cfg0 env0).2 := by
  have h := asset_dir_unique_work_dir_shared st0 cfg0 (req0 1) (req0 2) (by decide)
  have h2 := h.2 env0 uri0 "r.git" rfl rfl rfl
  exact ⟨h.1, h2.1, h2.2⟩

end AerynOS
